import Mathlib

/-!
# Verification of the bestmusic-spotify-music analysis scripts

Shallow embedding of the three Python scripts
(`create_summary_stats.py`, `create_network_viz.py`,
`src/data/spr3python/create_clean_network_viz.py`).

Tabular data is modelled as Lean lists of records, in file order.
Popularity values (integers 0–100 in the data, floats after pandas
aggregation) are embedded as exact rationals `ℚ`; the floating-point
square root used by the `std` aggregate is irrational in general, so the
pipeline is parameterised by the square-root function `sq : ℚ → ℚ` (no
claim below depends on the numeric value of a defined standard
deviation, only on its definedness and on the other aggregates).
Likewise the decimal rendering of a float is abstracted as a formatter
`fmt : ℚ → String`; the claims about serialized output depend only on
the header, the column layout, and the missing-value cell.
-/

/-- A row of `data/edges/edges_thresholded.tsv`: header-less two-column
TSV read with `names=['artist', 'track']`. -/
structure Edge where
  artist : String
  track : String
deriving DecidableEq

/-- A row of `data/samples/Spotify_Filtered_1k.csv`, restricted to the
two columns the pipeline uses (`track_name`, `popularity`); the other
columns are carried through the merge but never read. -/
structure TrackMeta where
  track_name : String
  popularity : ℚ
deriving DecidableEq

/-- `edges_df.merge(spotify_df, left_on='track', right_on='track_name',
how='inner')` (create_summary_stats.py line 24): for each edge row in
order, one output row per metadata row whose `track_name` equals the
edge's `track`, preserving left-then-right order.  Duplicate track
names in the metadata fan out, one row per match. -/
def merged_df (edges_df : List Edge) (spotify_df : List TrackMeta) :
    List (Edge × TrackMeta) :=
  edges_df.flatMap fun e =>
    (spotify_df.filter fun m => m.track_name == e.track).map fun m => (e, m)

/-- The `popularity` column of the group of `merged` rows whose
`artist` equals `a` (pandas `groupby('artist')['popularity']` group),
in merged-frame order. -/
def groupPops (merged : List (Edge × TrackMeta)) (a : String) : List ℚ :=
  (merged.filter fun r => r.1.artist == a).map fun r => r.2.popularity

/-- The group keys of `groupby('artist')` with the default
`sort=True`: the distinct artist values, in ascending order. -/
def summary_keys (merged : List (Edge × TrackMeta)) : List String :=
  List.insertionSort (· ≤ ·) ((merged.map fun r => r.1.artist).dedup)

/-- pandas `'min'` aggregate of a group (junk value 0 on the empty
list, which `groupby` never produces). -/
def minQ : List ℚ → ℚ
  | [] => 0
  | x :: xs => xs.foldl min x

/-- pandas `'max'` aggregate of a group (junk value 0 on the empty
list, which `groupby` never produces). -/
def maxQ : List ℚ → ℚ
  | [] => 0
  | x :: xs => xs.foldl max x

/-- pandas `'mean'` aggregate: sum divided by length (in `ℚ`, division
by the length 0 of the never-occurring empty group yields 0). -/
def meanQ (l : List ℚ) : ℚ :=
  l.sum / l.length

/-- pandas `'median'` aggregate: middle element of the sorted values
for odd length, average of the two middle elements for even length. -/
def medianQ (l : List ℚ) : ℚ :=
  let s := List.insertionSort (· ≤ ·) l
  if l.length % 2 = 1 then s.getD (l.length / 2) 0
  else (s.getD (l.length / 2 - 1) 0 + s.getD (l.length / 2) 0) / 2

/-- The sample variance with `ddof=1`, the square of the pandas `'std'`
aggregate: `Σ (x - mean)² / (n - 1)`, undefined (`NaN`, modelled as
`none`) for groups of fewer than two rows. -/
def sampleVar (l : List ℚ) : Option ℚ :=
  if 2 ≤ l.length then
    some (((l.map fun x => (x - meanQ l) ^ 2).sum) / ((l.length - 1 : ℕ) : ℚ))
  else none

/-- Round-half-to-even to the nearest integer, the rounding mode of
`numpy`/pandas `.round`: ties (fractional part exactly 1/2) go to the
even neighbour. -/
def rne (q : ℚ) : ℤ :=
  if Int.fract q < 1 / 2 then ⌊q⌋
  else if Int.fract q = 1 / 2 then (if Even ⌊q⌋ then ⌊q⌋ else ⌊q⌋ + 1)
  else ⌊q⌋ + 1

/-- pandas `.round(2)`: round-half-to-even at two decimal places. -/
def round2 (q : ℚ) : ℚ :=
  (rne (q * 100) : ℚ) / 100

/-- A row of the renamed aggregate frame `summary_stats`
(create_summary_stats.py lines 30–44): the six popularity aggregates of
one artist group, each rounded to two decimals.  `track_count` is the
integer `count` column, unchanged by `.round(2)`.  `std_popularity` is
`none` exactly when pandas produces `NaN`. -/
structure ArtistRow where
  artist : String
  track_count : ℕ
  mean_popularity : ℚ
  median_popularity : ℚ
  std_popularity : Option ℚ
  min_popularity : ℚ
  max_popularity : ℚ
deriving DecidableEq

/-- The aggregate row of the artist group `a`, with the square-root
function abstracted as `sq` (`std = sqrt variance`, then `.round(2)`). -/
def mkRow (sq : ℚ → ℚ) (merged : List (Edge × TrackMeta)) (a : String) :
    ArtistRow :=
  let g := groupPops merged a
  { artist := a
    track_count := g.length
    mean_popularity := round2 (meanQ g)
    median_popularity := round2 (medianQ g)
    std_popularity := (sampleVar g).map fun v => round2 (sq v)
    min_popularity := round2 (minQ g)
    max_popularity := round2 (maxQ g) }

/-- Descending comparison by a natural-number key, the order used by
`sort_values(..., ascending=False)` and `value_counts()`. -/
def descBy (f : α → ℕ) (x y : α) : Prop :=
  f y ≤ f x

instance (f : α → ℕ) : DecidableRel (descBy f) :=
  fun x y => Nat.decLe (f y) (f x)

instance (f : α → ℕ) : IsTotal α (descBy f) :=
  ⟨fun a b => le_total (f b) (f a)⟩

instance (f : α → ℕ) : IsTrans α (descBy f) :=
  ⟨fun _ _ _ h1 h2 => le_trans h2 h1⟩

/-- The `summary_stats` frame as written (create_summary_stats.py
lines 30–47): one aggregate row per distinct artist of the merged
frame, sorted by `track_count` descending.  The source sort
(`sort_values`, default quicksort) leaves the order of tied counts
unspecified; the model fixes the stable insertion sort on the
key-ascending group list, which satisfies every property stated
below (none depends on the tie order). -/
def summary_stats (sq : ℚ → ℚ) (edges_df : List Edge)
    (spotify_df : List TrackMeta) : List ArtistRow :=
  List.insertionSort (descBy ArtistRow.track_count)
    ((summary_keys (merged_df edges_df spotify_df)).map
      (mkRow sq (merged_df edges_df spotify_df)))

/-- A row of the reduced frame `simple_stats`
(create_summary_stats.py lines 58–59): the four retained columns,
renamed. -/
structure SimpleRow where
  artist : String
  count : ℕ
  mean : ℚ
  median : ℚ
deriving DecidableEq

/-- `simple_stats`: the column projection of the sorted
`summary_stats` frame, in the same row order. -/
def simple_stats (sq : ℚ → ℚ) (edges_df : List Edge)
    (spotify_df : List TrackMeta) : List SimpleRow :=
  (summary_stats sq edges_df spotify_df).map fun r =>
    { artist := r.artist
      count := r.track_count
      mean := r.mean_popularity
      median := r.median_popularity }

/-- The missing-value cell of `to_csv` (default `na_rep=''`): a `NaN`
entry is serialized as the empty field; a defined value is rendered by
the abstract float formatter `fmt`. -/
def stdCell (fmt : ℚ → String) : Option ℚ → String
  | none => ""
  | some v => fmt v

/-- The tab-separated cells of one `cluster_outcomes.tsv` data row, in
column order. -/
def fullRowCells (fmt : ℚ → String) (r : ArtistRow) : List String :=
  [r.artist, toString r.track_count, fmt r.mean_popularity,
    fmt r.median_popularity, stdCell fmt r.std_popularity,
    fmt r.min_popularity, fmt r.max_popularity]

/-- The tab-separated cells of one `cluster_outcomes_simple.tsv` data
row, in column order. -/
def simpleRowCells (fmt : ℚ → String) (r : SimpleRow) : List String :=
  [r.artist, toString r.count, fmt r.mean, fmt r.median]

/-- The header line of `cluster_outcomes.tsv`. -/
def fullHeader : String :=
  "artist\ttrack_count\tmean_popularity\tmedian_popularity\tstd_popularity\tmin_popularity\tmax_popularity"

/-- The header line of `cluster_outcomes_simple.tsv`. -/
def simpleHeader : String :=
  "artist\tcount\tmean\tmedian"

/-- Join cells with tabs into one TSV line. -/
def tabLine (cells : List String) : String :=
  String.intercalate "\t" cells

/-- A whole TSV file as written by `to_csv(sep='\t', index=False)`:
the header line followed by the data lines, each terminated by a
newline. -/
def tsvFile (header : String) (rowLines : List String) : String :=
  String.join ((header :: rowLines).map fun l => l ++ "\n")

/-- The byte content of `data/out/cluster_outcomes.tsv`
(create_summary_stats.py line 54). -/
def cluster_outcomes_tsv (sq : ℚ → ℚ) (fmt : ℚ → String)
    (edges_df : List Edge) (spotify_df : List TrackMeta) : String :=
  tsvFile fullHeader
    ((summary_stats sq edges_df spotify_df).map fun r =>
      tabLine (fullRowCells fmt r))

/-- The byte content of `data/out/cluster_outcomes_simple.tsv`
(create_summary_stats.py line 62). -/
def cluster_outcomes_simple_tsv (sq : ℚ → ℚ) (fmt : ℚ → String)
    (edges_df : List Edge) (spotify_df : List TrackMeta) : String :=
  tsvFile simpleHeader
    ((simple_stats sq edges_df spotify_df).map fun r =>
      tabLine (simpleRowCells fmt r))

/-- The whole run of `create_summary_statistics()`.  Both TSV files
are written (their contents are `cluster_outcomes_tsv` and
`cluster_outcomes_simple_tsv`) and the plot is saved before the final
insights block; line 103 then evaluates `summary_stats.iloc[0]`, which
raises `IndexError` when the summary frame has no rows, so the script
only completes when at least one row exists (in which case the later
`idxmax`/`idxmin` calls also succeed, the `mean_popularity` column
being free of `NaN`).  The result is the pair of TSV contents on
completion, and the uncaught exception otherwise. -/
def create_summary_statistics (sq : ℚ → ℚ) (fmt : ℚ → String)
    (edges_df : List Edge) (spotify_df : List TrackMeta) :
    Except String (String × String) :=
  match (summary_stats sq edges_df spotify_df).head? with
  | some _ =>
      .ok (cluster_outcomes_tsv sq fmt edges_df spotify_df,
        cluster_outcomes_simple_tsv sq fmt edges_df spotify_df)
  | none => .error "IndexError: single positional indexer is out-of-bounds"

/-- `edges_df['artist'].value_counts()`: one `(artist, edge count)`
pair per distinct artist, sorted by count descending (tie order
unspecified in pandas; the model uses the stable sort on
first-occurrence key order — no property below depends on it). -/
def value_counts (edges_df : List Edge) : List (String × ℕ) :=
  List.insertionSort (descBy Prod.snd)
    (((edges_df.map fun e => e.artist).dedup).map fun a =>
      (a, (edges_df.filter fun e => e.artist == a).length))

/-- `value_counts().head(n).index`: the top `n` artists by edge count
(create_network_viz.py line 20 with `n = 20`,
create_clean_network_viz.py line 20 with `n = 3`). -/
def top_artists (n : ℕ) (edges_df : List Edge) : List String :=
  ((value_counts edges_df).take n).map Prod.fst

/-- `edges_df[edges_df['artist'].isin(top_artists.index)]`: the edges
whose artist is among the top `n`. -/
def filtered_edges (n : ℕ) (edges_df : List Edge) : List Edge :=
  edges_df.filter fun e => (top_artists n edges_df).contains e.artist

/-- `filtered_edges[filtered_edges['artist'] == artist]` in the clean
visualization's sampling loop (create_clean_network_viz.py line 28). -/
def artist_tracks (edges_df : List Edge) (a : String) : List Edge :=
  (filtered_edges 3 edges_df).filter fun e => e.artist == a

/-- The contract of `DataFrame.sample(n=k, random_state=42)` for
`k ≤ len`: a deterministic, seeded selection of exactly `k` rows drawn
without replacement from the input rows (i.e. a subpermutation).  The
pseudo-random generator itself is third-party library state and is
abstracted by the function `samp`; uniformity of the draw is a
distributional property of that library and is not modelled. -/
def SampContract (samp : List Edge → ℕ → List Edge) : Prop :=
  ∀ (l : List Edge) (n : ℕ), n ≤ l.length →
    (samp l n).length = n ∧ List.Subperm (samp l n) l

/-- `artist_tracks.sample(n=min(20, len(artist_tracks)),
random_state=42)` (create_clean_network_viz.py line 30), for one
selected artist. -/
def sampled_for (samp : List Edge → ℕ → List Edge) (edges_df : List Edge)
    (a : String) : List Edge :=
  samp (artist_tracks edges_df a) (min 20 (artist_tracks edges_df a).length)

/-- `pd.concat(sampled_edges, ignore_index=True)`
(create_clean_network_viz.py line 33) applied to the per-artist
samples of the top-3 artists: `pd.concat` raises
`ValueError: No objects to concatenate` when the list of frames is
empty, which happens exactly when the edge table has no artists. -/
def sampled_edges_df (samp : List Edge → ℕ → List Edge)
    (edges_df : List Edge) : Except String (List Edge) :=
  let chunks := (top_artists 3 edges_df).map (sampled_for samp edges_df)
  if chunks.isEmpty then .error "ValueError: No objects to concatenate"
  else .ok chunks.flatten

/-- The node set of the `networkx` graph of
`create_network_visualization` (create_network_viz.py lines 27–33):
every string occurring as artist or track of a kept edge is one node —
node identity is the bare string, so a name occurring both as an
artist and as a track is a single node. -/
def graph_nodes (edges_df : List Edge) : List String :=
  ((filtered_edges 20 edges_df).map (fun e => e.artist) ++
    (filtered_edges 20 edges_df).map (fun e => e.track)).dedup

/-- The undirected adjacency of the `networkx` graph: `x` and `y` are
adjacent iff some kept edge row is `(x, y)` or `(y, x)`. -/
def graph_adj (edges_df : List Edge) (x y : String) : Bool :=
  (filtered_edges 20 edges_df).any fun e =>
    (e.artist == x && e.track == y) || (e.artist == y && e.track == x)

/-- `artist_nodes = [node for node in G.nodes() if node in
top_artists.index]` (create_network_viz.py line 42). -/
def artist_nodes (edges_df : List Edge) : List String :=
  (graph_nodes edges_df).filter fun v => (top_artists 20 edges_df).contains v

/-- `track_nodes = [node for node in G.nodes() if node not in
top_artists.index]` (create_network_viz.py line 43). -/
def track_nodes (edges_df : List Edge) : List String :=
  (graph_nodes edges_df).filter fun v => !(top_artists 20 edges_df).contains v

/-- A concrete instance of the sampling contract, used to instantiate
universally quantified samplers at concrete inputs: keep the first `n`
rows. -/
def takeSamp (l : List Edge) (n : ℕ) : List Edge :=
  l.take n

/-- A stand-in for the abstracted square root at concrete inputs (the
claims never depend on the numeric value it returns). -/
def sqZero (_ : ℚ) : ℚ :=
  0

/-- A stand-in for the abstracted float formatter at concrete inputs. -/
def fmtQ (q : ℚ) : String :=
  toString q

/-- The worked scenario of the specification: two tracks for artist A,
one for artist B, all matched by the metadata. -/
def edgesScenario : List Edge :=
  [⟨"A", "t1"⟩, ⟨"A", "t2"⟩, ⟨"B", "t3"⟩]

/-- Metadata for `edgesScenario`. -/
def metaScenario : List TrackMeta :=
  [⟨"t1", 50⟩, ⟨"t2", 70⟩, ⟨"t3", 90⟩]

/-- A single artist with two matched tracks: the summary has one
group, so the group-key sort is trivial and the row is evaluable. -/
def edgesPair : List Edge :=
  [⟨"A", "t1"⟩, ⟨"A", "t2"⟩]

/-- Metadata for `edgesPair`. -/
def metaPair : List TrackMeta :=
  [⟨"t1", 50⟩, ⟨"t2", 70⟩]

/-- A single artist with a single matched track: the one summary group
has exactly one row, the degenerate case of the `std` aggregate. -/
def edgesSingle : List Edge :=
  [⟨"B", "t3"⟩]

/-- Metadata for `edgesSingle`. -/
def metaSingle : List TrackMeta :=
  [⟨"t3", 90⟩]

/-- An edge whose track name matches no metadata row: the inner join
is empty. -/
def edgesNoMatch : List Edge :=
  [⟨"A", "t1"⟩]

/-- Metadata that matches no edge of `edgesNoMatch`. -/
def metaNoMatch : List TrackMeta :=
  [⟨"t2", 50⟩]

/-- One artist with five edges, for the clean-visualization sampling
scenario (5 ≤ K = 20). -/
def edgesFive : List Edge :=
  [⟨"A", "t1"⟩, ⟨"A", "t2"⟩, ⟨"A", "t3"⟩, ⟨"A", "t4"⟩, ⟨"A", "t5"⟩]

/-- An edge list in which the string "B" occurs both as an artist and
as a track: the two roles collapse to a single graph node. -/
def edgesCollide : List Edge :=
  [⟨"A", "B"⟩, ⟨"B", "C"⟩]

/-- A one-edge list with disjoint artist and track names. -/
def edgesOne : List Edge :=
  [⟨"A", "t1"⟩]

theorem foldl_min_le_init (xs : List ℚ) : ∀ acc : ℚ, xs.foldl min acc ≤ acc := by
  induction xs with
  | nil => intro acc; simp
  | cons y ys ih => intro acc; exact le_trans (ih (min acc y)) (min_le_left _ _)

theorem foldl_min_le_mem (xs : List ℚ) :
    ∀ (acc x : ℚ), x ∈ xs → xs.foldl min acc ≤ x := by
  induction xs with
  | nil => intro acc x hx; cases hx
  | cons y ys ih =>
    intro acc x hx
    rcases List.mem_cons.1 hx with h | h
    · subst h
      exact le_trans (foldl_min_le_init ys _) (min_le_right _ _)
    · exact ih _ x h

theorem minQ_le {l : List ℚ} {x : ℚ} (hx : x ∈ l) : minQ l ≤ x := by
  cases l with
  | nil => cases hx
  | cons y ys =>
    rcases List.mem_cons.1 hx with h | h
    · subst h; exact foldl_min_le_init ys x
    · exact foldl_min_le_mem ys y x h

theorem init_le_foldl_max (xs : List ℚ) : ∀ acc : ℚ, acc ≤ xs.foldl max acc := by
  induction xs with
  | nil => intro acc; simp
  | cons y ys ih => intro acc; exact le_trans (le_max_left _ _) (ih (max acc y))

theorem mem_le_foldl_max (xs : List ℚ) :
    ∀ (acc x : ℚ), x ∈ xs → x ≤ xs.foldl max acc := by
  induction xs with
  | nil => intro acc x hx; cases hx
  | cons y ys ih =>
    intro acc x hx
    rcases List.mem_cons.1 hx with h | h
    · subst h
      exact le_trans (le_max_right _ _) (init_le_foldl_max ys _)
    · exact ih _ x h

theorem le_maxQ {l : List ℚ} {x : ℚ} (hx : x ∈ l) : x ≤ maxQ l := by
  cases l with
  | nil => cases hx
  | cons y ys =>
    rcases List.mem_cons.1 hx with h | h
    · subst h; exact init_le_foldl_max ys x
    · exact mem_le_foldl_max ys y x h

theorem length_mul_le_sum (l : List ℚ) (c : ℚ) :
    (∀ x ∈ l, c ≤ x) → (l.length : ℚ) * c ≤ l.sum := by
  induction l with
  | nil => intro _; simp
  | cons y ys ih =>
    intro h
    have h1 : c ≤ y := h y (List.mem_cons_self y ys)
    have h2 := ih fun x hx => h x (List.mem_cons_of_mem _ hx)
    simp only [List.sum_cons, List.length_cons]
    push_cast
    nlinarith [h1, h2]

theorem sum_le_length_mul (l : List ℚ) (c : ℚ) :
    (∀ x ∈ l, x ≤ c) → l.sum ≤ (l.length : ℚ) * c := by
  induction l with
  | nil => intro _; simp
  | cons y ys ih =>
    intro h
    have h1 : y ≤ c := h y (List.mem_cons_self y ys)
    have h2 := ih fun x hx => h x (List.mem_cons_of_mem _ hx)
    simp only [List.sum_cons, List.length_cons]
    push_cast
    nlinarith [h1, h2]

theorem minQ_le_meanQ {l : List ℚ} (h : l ≠ []) : minQ l ≤ meanQ l := by
  have hn : 0 < (l.length : ℚ) := by
    exact_mod_cast List.length_pos.2 h
  have hs := length_mul_le_sum l (minQ l) fun x hx => minQ_le hx
  rw [meanQ, le_div_iff₀ hn]
  linarith

theorem meanQ_le_maxQ {l : List ℚ} (h : l ≠ []) : meanQ l ≤ maxQ l := by
  have hn : 0 < (l.length : ℚ) := by
    exact_mod_cast List.length_pos.2 h
  have hs := sum_le_length_mul l (maxQ l) fun x hx => le_maxQ hx
  rw [meanQ, div_le_iff₀ hn]
  linarith

theorem getD_mem_of_lt (l : List ℚ) (i : ℕ) (h : i < l.length) :
    l.getD i 0 ∈ l := by
  induction l generalizing i with
  | nil => simp at h
  | cons y ys ih =>
    cases i with
    | zero => simp
    | succ j =>
      have hj : j < ys.length := by simpa using h
      simpa using Or.inr (ih j hj)

theorem medianQ_bounds {l : List ℚ} (h : l ≠ []) :
    minQ l ≤ medianQ l ∧ medianQ l ≤ maxQ l := by
  have hper := List.perm_insertionSort (α := ℚ) (· ≤ ·) l
  have hlen : (List.insertionSort (· ≤ ·) l).length = l.length := hper.length_eq
  have hpos : 0 < l.length := List.length_pos.2 h
  have hmem : ∀ i, i < l.length → (List.insertionSort (· ≤ ·) l).getD i 0 ∈ l :=
    fun i hi => hper.mem_iff.1 (getD_mem_of_lt _ i (by rw [hlen]; exact hi))
  have hhalf : l.length / 2 < l.length := Nat.div_lt_self hpos (by norm_num)
  have hhalf1 : l.length / 2 - 1 < l.length := lt_of_le_of_lt (Nat.sub_le _ _) hhalf
  rw [medianQ]
  split_ifs
  · exact ⟨minQ_le (hmem _ hhalf), le_maxQ (hmem _ hhalf)⟩
  · have h1 := hmem _ hhalf1
    have h2 := hmem _ hhalf
    constructor
    · have := minQ_le h1
      have := minQ_le h2
      linarith
    · have := le_maxQ h1
      have := le_maxQ h2
      linarith

theorem rne_ge_floor (q : ℚ) : ⌊q⌋ ≤ rne q := by
  unfold rne
  split_ifs <;> omega

theorem rne_le_floor_add_one (q : ℚ) : rne q ≤ ⌊q⌋ + 1 := by
  unfold rne
  split_ifs <;> omega

theorem rne_eq_floor_of_lt {q : ℚ} (h : Int.fract q < 1 / 2) : rne q = ⌊q⌋ := by
  unfold rne
  rw [if_pos h]

theorem rne_eq_of_gt {q : ℚ} (h : 1 / 2 < Int.fract q) : rne q = ⌊q⌋ + 1 := by
  have h1 : ¬ Int.fract q < 1 / 2 := not_lt.2 h.le
  have h2 : ¬ Int.fract q = 1 / 2 := by
    intro he
    rw [he] at h
    exact lt_irrefl _ h
  unfold rne
  rw [if_neg h1, if_neg h2]

theorem rne_tie_even {q : ℚ} (h : Int.fract q = 1 / 2) (he : Even ⌊q⌋) :
    rne q = ⌊q⌋ := by
  have h1 : ¬ Int.fract q < 1 / 2 := by
    rw [h]
    exact lt_irrefl _
  unfold rne
  rw [if_neg h1, if_pos h, if_pos he]

theorem rne_tie_odd {q : ℚ} (h : Int.fract q = 1 / 2) (he : ¬ Even ⌊q⌋) :
    rne q = ⌊q⌋ + 1 := by
  have h1 : ¬ Int.fract q < 1 / 2 := by
    rw [h]
    exact lt_irrefl _
  unfold rne
  rw [if_neg h1, if_pos h, if_neg he]

theorem rne_mono {q r : ℚ} (h : q ≤ r) : rne q ≤ rne r := by
  rcases lt_or_eq_of_le (Int.floor_le_floor h) with hf | hf
  · calc rne q ≤ ⌊q⌋ + 1 := rne_le_floor_add_one q
      _ ≤ ⌊r⌋ := by omega
      _ ≤ rne r := rne_ge_floor r
  · have hfr : Int.fract q ≤ Int.fract r := by
      rw [Int.fract, Int.fract, hf]
      linarith
    rcases lt_trichotomy (Int.fract q) (1 / 2 : ℚ) with hq | hq | hq
    · rw [rne_eq_floor_of_lt hq, hf]
      exact rne_ge_floor r
    · by_cases he : Even ⌊q⌋
      · rw [rne_tie_even hq he, hf]
        exact rne_ge_floor r
      · rw [rne_tie_odd hq he]
        rcases eq_or_lt_of_le (hq ▸ hfr) with hr | hr
        · rw [rne_tie_odd hr.symm (by rw [← hf]; exact he), hf]
        · rw [rne_eq_of_gt hr]
          omega
    · have hr : 1 / 2 < Int.fract r := lt_of_lt_of_le hq hfr
      rw [rne_eq_of_gt hq, rne_eq_of_gt hr]
      omega

theorem round2_mono {q r : ℚ} (h : q ≤ r) : round2 q ≤ round2 r := by
  unfold round2
  have h1 : rne (q * 100) ≤ rne (r * 100) := rne_mono (by linarith)
  have h2 : ((rne (q * 100) : ℤ) : ℚ) ≤ ((rne (r * 100) : ℤ) : ℚ) := by
    exact_mod_cast h1
  linarith

theorem takeSamp_contract : SampContract takeSamp := by
  intro l n hn
  refine ⟨?_, (List.take_sublist n l).subperm⟩
  simpa [takeSamp] using hn

theorem length_filter_artist (M : List (Edge × TrackMeta)) (a : String) :
    (M.filter fun r => r.1.artist == a).length =
      (M.map fun r => r.1.artist).count a := by
  rw [← List.countP_eq_length_filter, List.count, List.countP_map]
  rfl

theorem list_toFinset_dedup (l : List String) : l.dedup.toFinset = l.toFinset :=
  List.toFinset.ext_iff.2 fun _ => List.mem_dedup

theorem sum_map_count_dedup (l : List String) :
    (l.dedup.map fun a => l.count a).sum = l.length := by
  rw [← List.sum_toFinset _ l.nodup_dedup, list_toFinset_dedup,
    List.sum_toFinset_count_eq_length]

/-- **C1.** For every non-empty edge set and metadata set, the sum of
`track_count` over the rows of the produced summary equals the number
of rows of the inner join of edges and metadata on track name — the
post-join cardinality, so fan-out from duplicate track names in the
metadata contributes once per joined row and is not deduplicated. -/
theorem sum_track_count_eq_merged_length (sq : ℚ → ℚ) (edges_df : List Edge)
    (spotify_df : List TrackMeta) (he : edges_df ≠ []) (hm : spotify_df ≠ []) :
    ((summary_stats sq edges_df spotify_df).map fun r => r.track_count).sum =
      (merged_df edges_df spotify_df).length := by
  have hperm :
      List.Perm (summary_stats sq edges_df spotify_df)
        ((summary_keys (merged_df edges_df spotify_df)).map
          (mkRow sq (merged_df edges_df spotify_df))) :=
    List.perm_insertionSort _ _
  rw [(hperm.map fun r => r.track_count).sum_eq, List.map_map]
  have h2 : ((fun r : ArtistRow => r.track_count) ∘
      mkRow sq (merged_df edges_df spotify_df)) =
      fun a => (groupPops (merged_df edges_df spotify_df) a).length := rfl
  rw [h2]
  have hperm2 :
      List.Perm (summary_keys (merged_df edges_df spotify_df))
        (((merged_df edges_df spotify_df).map fun r => r.1.artist).dedup) :=
    List.perm_insertionSort _ _
  rw [(hperm2.map fun a =>
    (groupPops (merged_df edges_df spotify_df) a).length).sum_eq]
  have h3 : (fun a => (groupPops (merged_df edges_df spotify_df) a).length) =
      fun a => ((merged_df edges_df spotify_df).map fun r => r.1.artist).count a := by
    funext a
    rw [groupPops, List.length_map, length_filter_artist]
  rw [h3, sum_map_count_dedup, List.length_map]

theorem sum_track_count_eq_merged_length_witness :
    edgesScenario ≠ [] ∧ metaScenario ≠ [] ∧
    ((summary_stats sqZero edgesScenario metaScenario).map
      fun r => r.track_count).sum = (merged_df edgesScenario metaScenario).length :=
  ⟨by decide, by decide,
    sum_track_count_eq_merged_length sqZero edgesScenario metaScenario
      (by decide) (by decide)⟩

/-- **C4.** For every input, the rows of both written reports are
ordered with `track_count` (`count` in the reduced report)
non-increasing from the first row to the last. -/
theorem summary_sorted_desc (sq : ℚ → ℚ) (edges_df : List Edge)
    (spotify_df : List TrackMeta) :
    List.Pairwise (fun r s : ArtistRow => s.track_count ≤ r.track_count)
      (summary_stats sq edges_df spotify_df) ∧
    List.Pairwise (fun r s : SimpleRow => s.count ≤ r.count)
      (simple_stats sq edges_df spotify_df) := by
  have h := List.sorted_insertionSort (descBy ArtistRow.track_count)
    ((summary_keys (merged_df edges_df spotify_df)).map
      (mkRow sq (merged_df edges_df spotify_df)))
  exact ⟨h, List.Pairwise.map _ (fun a b hab => hab) h⟩

theorem mem_summary_stats {sq : ℚ → ℚ} {edges_df : List Edge}
    {spotify_df : List TrackMeta} {r : ArtistRow}
    (h : r ∈ summary_stats sq edges_df spotify_df) :
    ∃ a, r = mkRow sq (merged_df edges_df spotify_df) a := by
  rw [summary_stats, List.mem_insertionSort] at h
  rcases List.mem_map.1 h with ⟨a, _, hr⟩
  exact ⟨a, hr.symm⟩

/-- **C5.** For every row of the summary with `track_count ≥ 1`, after
the independent rounding of each aggregate to two decimals,
`min_popularity ≤ mean_popularity ≤ max_popularity` and
`min_popularity ≤ median_popularity ≤ max_popularity`. -/
theorem row_aggregate_bounds (sq : ℚ → ℚ) (edges_df : List Edge)
    (spotify_df : List TrackMeta) (r : ArtistRow)
    (hr : r ∈ summary_stats sq edges_df spotify_df)
    (hc : 1 ≤ r.track_count) :
    r.min_popularity ≤ r.mean_popularity ∧
    r.mean_popularity ≤ r.max_popularity ∧
    r.min_popularity ≤ r.median_popularity ∧
    r.median_popularity ≤ r.max_popularity := by
  obtain ⟨a, rfl⟩ := mem_summary_stats hr
  have hg : groupPops (merged_df edges_df spotify_df) a ≠ [] := by
    intro hnil
    have h0 : (mkRow sq (merged_df edges_df spotify_df) a).track_count = 0 := by
      show (groupPops (merged_df edges_df spotify_df) a).length = 0
      rw [hnil]
      rfl
    omega
  exact ⟨round2_mono (minQ_le_meanQ hg), round2_mono (meanQ_le_maxQ hg),
    round2_mono (medianQ_bounds hg).1, round2_mono (medianQ_bounds hg).2⟩

theorem row_aggregate_bounds_witness :
    mkRow sqZero (merged_df edgesPair metaPair) "A" ∈
      summary_stats sqZero edgesPair metaPair ∧
    1 ≤ (mkRow sqZero (merged_df edgesPair metaPair) "A").track_count ∧
    ((mkRow sqZero (merged_df edgesPair metaPair) "A").min_popularity ≤
        (mkRow sqZero (merged_df edgesPair metaPair) "A").mean_popularity ∧
      (mkRow sqZero (merged_df edgesPair metaPair) "A").mean_popularity ≤
        (mkRow sqZero (merged_df edgesPair metaPair) "A").max_popularity ∧
      (mkRow sqZero (merged_df edgesPair metaPair) "A").min_popularity ≤
        (mkRow sqZero (merged_df edgesPair metaPair) "A").median_popularity ∧
      (mkRow sqZero (merged_df edgesPair metaPair) "A").median_popularity ≤
        (mkRow sqZero (merged_df edgesPair metaPair) "A").max_popularity) := by
  have hkeys : summary_keys (merged_df edgesPair metaPair) = ["A"] := by decide
  have hstats : summary_stats sqZero edgesPair metaPair =
      [mkRow sqZero (merged_df edgesPair metaPair) "A"] := by
    unfold summary_stats
    rw [hkeys]
    rfl
  have hmem : mkRow sqZero (merged_df edgesPair metaPair) "A" ∈
      summary_stats sqZero edgesPair metaPair := by
    rw [hstats]
    exact List.mem_singleton_self _
  have hg : groupPops (merged_df edgesPair metaPair) "A" = [50, 70] := by decide
  have hcount : 1 ≤ (mkRow sqZero (merged_df edgesPair metaPair) "A").track_count := by
    show 1 ≤ (groupPops (merged_df edgesPair metaPair) "A").length
    rw [hg]
    decide
  exact ⟨hmem, hcount,
    row_aggregate_bounds sqZero edgesPair metaPair _ hmem hcount⟩

/-- **C10.** For every input, the reduced four-column report is an
exact column projection of the full seven-column report: the same rows
in the same order, each reduced row consisting of the first four cells
(artist, count, mean, median) of the corresponding full row. -/
theorem simple_is_column_projection (sq : ℚ → ℚ) (fmt : ℚ → String)
    (edges_df : List Edge) (spotify_df : List TrackMeta) :
    (simple_stats sq edges_df spotify_df).map (simpleRowCells fmt) =
      (summary_stats sq edges_df spotify_df).map
        fun r => (fullRowCells fmt r).take 4 := by
  rw [simple_stats, List.map_map]
  rfl

/-- **C7.** The summary pipeline is a pure, deterministic function of
its two input files: runs on equal inputs produce byte-identical TSV
contents.  (The embedding is stateless by construction; the summary
pipeline involves no sampling, so no random seed enters.) -/
theorem summary_pipeline_deterministic (sq : ℚ → ℚ) (fmt : ℚ → String)
    (e1 e2 : List Edge) (m1 m2 : List TrackMeta)
    (he : e1 = e2) (hm : m1 = m2) :
    cluster_outcomes_tsv sq fmt e1 m1 = cluster_outcomes_tsv sq fmt e2 m2 ∧
    cluster_outcomes_simple_tsv sq fmt e1 m1 =
      cluster_outcomes_simple_tsv sq fmt e2 m2 := by
  subst he
  subst hm
  exact ⟨rfl, rfl⟩

theorem summary_pipeline_deterministic_witness :
    cluster_outcomes_tsv sqZero fmtQ edgesScenario metaScenario =
      cluster_outcomes_tsv sqZero fmtQ edgesScenario metaScenario ∧
    cluster_outcomes_simple_tsv sqZero fmtQ edgesScenario metaScenario =
      cluster_outcomes_simple_tsv sqZero fmtQ edgesScenario metaScenario :=
  summary_pipeline_deterministic sqZero fmtQ edgesScenario edgesScenario
    metaScenario metaScenario rfl rfl

/-- **C2** (behaviour at an empty join): when the inner join of the
input files is empty, both TSV files are written as well-formed
header-only files (they are written at lines 54 and 62, before the
failure), but the script then crashes: line 103 evaluates
`summary_stats.iloc[0]` on the empty frame, raising `IndexError`, so
the pipeline does not complete. -/
theorem empty_join_header_only_and_crash (sq : ℚ → ℚ) (fmt : ℚ → String) :
    merged_df edgesNoMatch metaNoMatch = [] ∧
    cluster_outcomes_tsv sq fmt edgesNoMatch metaNoMatch = fullHeader ++ "\n" ∧
    cluster_outcomes_simple_tsv sq fmt edgesNoMatch metaNoMatch =
      simpleHeader ++ "\n" ∧
    create_summary_statistics sq fmt edgesNoMatch metaNoMatch =
      Except.error "IndexError: single positional indexer is out-of-bounds" :=
  ⟨rfl, rfl, rfl, rfl⟩

theorem groupPops_ne_nil_of_mem_keys {M : List (Edge × TrackMeta)} {a : String}
    (ha : a ∈ summary_keys M) : groupPops M a ≠ [] := by
  rw [summary_keys, List.mem_insertionSort, List.mem_dedup] at ha
  rcases List.mem_map.1 ha with ⟨r, hr, hra⟩
  intro hnil
  rw [groupPops, List.map_eq_nil_iff] at hnil
  have hrf : r ∈ M.filter fun x => x.1.artist == a :=
    List.mem_filter.2 ⟨hr, by simp [hra]⟩
  rw [hnil] at hrf
  cases hrf

/-- **C3 counterexample.** At the concrete input `edgesSingle` /
`metaSingle` the artist "B" forms a joined group of exactly one row;
the `std_popularity` cell written for that row is the empty string
(`to_csv` serializes `NaN` with its default `na_rep=''`), so no
textual not-a-number sentinel such as "nan" or "NaN" appears in the
field, contrary to the claim's "represented ... as a not-a-number
sentinel value". -/
theorem std_cell_empty_not_nan_token :
    (groupPops (merged_df edgesSingle metaSingle) "B").length = 1 ∧
    stdCell fmtQ
      (mkRow sqZero (merged_df edgesSingle metaSingle) "B").std_popularity = "" ∧
    stdCell fmtQ
      (mkRow sqZero (merged_df edgesSingle metaSingle) "B").std_popularity ≠ "nan" ∧
    stdCell fmtQ
      (mkRow sqZero (merged_df edgesSingle metaSingle) "B").std_popularity ≠ "NaN" :=
  ⟨by decide, rfl, by decide, by decide⟩

/-- **C3** (amended). For every artist group of the join,
`std_popularity` is the `ddof=1` sample standard deviation: for a
group of two or more rows it is defined as the rounded square root of
`Σ (x - mean)² / (n - 1)`; for a group of exactly one row it is
undefined (pandas `NaN`, modelled `none`) and is serialized in the
TSV as the empty field (the writer's missing-value representation,
not a textual "nan" token), without raising an error — the row still
appears in the output and the script completes. -/
theorem std_popularity_cases (sq : ℚ → ℚ) (fmt : ℚ → String)
    (edges_df : List Edge) (spotify_df : List TrackMeta) (a : String)
    (ha : a ∈ summary_keys (merged_df edges_df spotify_df)) :
    mkRow sq (merged_df edges_df spotify_df) a ∈
      summary_stats sq edges_df spotify_df ∧
    ((mkRow sq (merged_df edges_df spotify_df) a).std_popularity = none ↔
      (groupPops (merged_df edges_df spotify_df) a).length = 1) ∧
    ((groupPops (merged_df edges_df spotify_df) a).length = 1 →
      stdCell fmt
        (mkRow sq (merged_df edges_df spotify_df) a).std_popularity = "") ∧
    (2 ≤ (groupPops (merged_df edges_df spotify_df) a).length →
      (mkRow sq (merged_df edges_df spotify_df) a).std_popularity =
        some (round2 (sq
          ((((groupPops (merged_df edges_df spotify_df) a).map fun x =>
            (x - meanQ (groupPops (merged_df edges_df spotify_df) a)) ^ 2).sum) /
            (((groupPops (merged_df edges_df spotify_df) a).length - 1 : ℕ) : ℚ))))) ∧
    (∃ out, create_summary_statistics sq fmt edges_df spotify_df =
      Except.ok out) := by
  have hpos : 1 ≤ (groupPops (merged_df edges_df spotify_df) a).length :=
    List.length_pos.2 (groupPops_ne_nil_of_mem_keys ha)
  have hmem : mkRow sq (merged_df edges_df spotify_df) a ∈
      summary_stats sq edges_df spotify_df := by
    rw [summary_stats, List.mem_insertionSort]
    exact List.mem_map_of_mem _ ha
  have hstd : (mkRow sq (merged_df edges_df spotify_df) a).std_popularity =
      (sampleVar (groupPops (merged_df edges_df spotify_df) a)).map
        fun v => round2 (sq v) := rfl
  refine ⟨hmem, ?_, ?_, ?_, ?_⟩
  · rw [hstd, Option.map_eq_none', sampleVar]
    split_ifs with h2
    · simp only [false_iff]
      intro h1
      omega
    · simp only [true_iff]
      omega
  · intro h1
    rw [hstd, sampleVar, if_neg (by omega)]
    rfl
  · intro h2
    rw [hstd, sampleVar, if_pos h2]
    rfl
  · obtain ⟨x, xs, hxs⟩ :=
      List.exists_cons_of_ne_nil (List.ne_nil_of_mem hmem)
    refine ⟨(cluster_outcomes_tsv sq fmt edges_df spotify_df,
      cluster_outcomes_simple_tsv sq fmt edges_df spotify_df), ?_⟩
    unfold create_summary_statistics
    rw [hxs]
    rfl

theorem std_popularity_cases_witness :
    ("B" ∈ summary_keys (merged_df edgesSingle metaSingle)) ∧
    ((mkRow sqZero (merged_df edgesSingle metaSingle) "B").std_popularity
        = none ↔
      (groupPops (merged_df edgesSingle metaSingle) "B").length = 1) ∧
    ((groupPops (merged_df edgesSingle metaSingle) "B").length = 1 →
      stdCell fmtQ
        (mkRow sqZero (merged_df edgesSingle metaSingle) "B").std_popularity
        = "") :=
  ⟨by decide,
    (std_popularity_cases sqZero fmtQ edgesSingle metaSingle "B" (by decide)).2.1,
    (std_popularity_cases sqZero fmtQ edgesSingle metaSingle "B"
      (by decide)).2.2.1⟩

/-- **C6.** In the clean (K = 20) visualization, for each selected
artist: if the artist has more than 20 edges, exactly 20 of them are
drawn without replacement (a subpermutation of the artist's edges) by
the seeded deterministic sampler; if the artist has at most 20 edges,
every one of its edges is kept — the selected rows are a permutation
of all the artist's edges (the source still calls `sample` with
`n = len`, which can only reorder).  The sampler is abstracted by any
function satisfying the `DataFrame.sample` contract; uniformity of
the draw is a distributional property of the library generator and is
outside the embedding. -/
theorem clean_sampling_cases (samp : List Edge → ℕ → List Edge)
    (edges_df : List Edge) (a : String) (hs : SampContract samp)
    (ha : a ∈ top_artists 3 edges_df) :
    (20 < (artist_tracks edges_df a).length →
      (sampled_for samp edges_df a).length = 20 ∧
      List.Subperm (sampled_for samp edges_df a) (artist_tracks edges_df a)) ∧
    ((artist_tracks edges_df a).length ≤ 20 →
      List.Perm (sampled_for samp edges_df a) (artist_tracks edges_df a)) := by
  have hcontract := hs (artist_tracks edges_df a)
    (min 20 (artist_tracks edges_df a).length) (min_le_right _ _)
  constructor
  · intro h20
    refine ⟨?_, hcontract.2⟩
    show (samp (artist_tracks edges_df a)
      (min 20 (artist_tracks edges_df a).length)).length = 20
    have h1 := hcontract.1
    omega
  · intro hle
    refine hcontract.2.perm_of_length_le ?_
    have h1 := hcontract.1
    show (artist_tracks edges_df a).length ≤
      (samp (artist_tracks edges_df a)
        (min 20 (artist_tracks edges_df a).length)).length
    omega

theorem clean_sampling_cases_witness :
    SampContract takeSamp ∧ "A" ∈ top_artists 3 edgesFive ∧
    List.Perm (sampled_for takeSamp edgesFive "A")
      (artist_tracks edgesFive "A") :=
  ⟨takeSamp_contract, by decide,
    (clean_sampling_cases takeSamp edgesFive "A" takeSamp_contract
      (by decide)).2 (by decide)⟩

/-- **C8 counterexample.** On the input `edgesCollide` the string "B"
occurs both as a selected artist and as the track of another selected
artist's edge, so the rendered graph has an edge joining two
artist-classified nodes: the graph is not bipartite with respect to
the artist/track node partition, contrary to the claim. -/
theorem graph_not_bipartite_on_collision :
    graph_adj edgesCollide "A" "B" = true ∧
    "A" ∈ artist_nodes edgesCollide ∧
    "B" ∈ artist_nodes edgesCollide ∧
    "B" ∉ track_nodes edgesCollide :=
  ⟨by decide, by decide, by decide, by decide⟩

theorem mem_filtered_edges_contains {edges_df : List Edge} {e : Edge}
    {n : ℕ} (h : e ∈ filtered_edges n edges_df) :
    (top_artists n edges_df).contains e.artist = true := by
  rw [filtered_edges] at h
  exact (List.mem_filter.1 h).2

/-- **C8** (amended). For every edge input, the renderer's node set is
partitioned into artist-classified and track-classified nodes, and for
nodes of opposite classes an edge exists iff the kept input contains
that `(artist, track)` pair.  The graph is moreover bipartite with
respect to this partition — every adjacency joins an artist node and a
track node — provided no kept edge's track name is itself one of the
selected artist names; without that proviso a name in both roles
collapses to a single (artist-classified) node and artist–artist
edges can occur. -/
theorem graph_structure (edges_df : List Edge) :
    (∀ v, v ∈ graph_nodes edges_df ↔
      (v ∈ artist_nodes edges_df ∨ v ∈ track_nodes edges_df)) ∧
    (∀ v, ¬(v ∈ artist_nodes edges_df ∧ v ∈ track_nodes edges_df)) ∧
    (∀ x y, x ∈ artist_nodes edges_df → y ∈ track_nodes edges_df →
      (graph_adj edges_df x y = true ↔
        (⟨x, y⟩ : Edge) ∈ filtered_edges 20 edges_df)) ∧
    ((∀ e ∈ filtered_edges 20 edges_df,
        (top_artists 20 edges_df).contains e.track = false) →
      ∀ x y, graph_adj edges_df x y = true →
        ((x ∈ artist_nodes edges_df ∧ y ∈ track_nodes edges_df) ∨
          (y ∈ artist_nodes edges_df ∧ x ∈ track_nodes edges_df))) := by
  refine ⟨?_, ?_, ?_, ?_⟩
  · intro v
    constructor
    · intro hv
      by_cases hc : (top_artists 20 edges_df).contains v
      · exact Or.inl (List.mem_filter.2 ⟨hv, hc⟩)
      · refine Or.inr (List.mem_filter.2 ⟨hv, ?_⟩)
        have h0 : (top_artists 20 edges_df).contains v = false := by
          cases h2 : (top_artists 20 edges_df).contains v
          · rfl
          · exact absurd h2 hc
        rw [h0]
        rfl
    · intro hv
      rcases hv with hv | hv
      · exact (List.mem_filter.1 hv).1
      · exact (List.mem_filter.1 hv).1
  · intro v hv
    have h1 := (List.mem_filter.1 hv.1).2
    have h2 := (List.mem_filter.1 hv.2).2
    simp only [Bool.not_eq_true'] at h2
    rw [h1] at h2
    cases h2
  · intro x y hx hy
    constructor
    · intro hadj
      rcases List.any_eq_true.1 hadj with ⟨e, heS, hbool⟩
      simp only [Bool.or_eq_true, Bool.and_eq_true, beq_iff_eq] at hbool
      rcases hbool with ⟨h1, h2⟩ | ⟨h1, h2⟩
      · cases e
        subst h1
        subst h2
        exact heS
      · exfalso
        have hyt := (List.mem_filter.1 hy).2
        have hye := mem_filtered_edges_contains heS
        rw [h1] at hye
        simp only [Bool.not_eq_true'] at hyt
        rw [hye] at hyt
        cases hyt
    · intro hmem
      exact List.any_eq_true.2 ⟨⟨x, y⟩, hmem, by simp⟩
  · intro hdisj x y hadj
    rcases List.any_eq_true.1 hadj with ⟨e, heS, hbool⟩
    simp only [Bool.or_eq_true, Bool.and_eq_true, beq_iff_eq] at hbool
    have hanode : e.artist ∈ artist_nodes edges_df := by
      refine List.mem_filter.2 ⟨?_, mem_filtered_edges_contains heS⟩
      exact List.mem_dedup.2
        (List.mem_append_left _ (List.mem_map_of_mem _ heS))
    have htnode : e.track ∈ track_nodes edges_df := by
      refine List.mem_filter.2 ⟨?_, ?_⟩
      · exact List.mem_dedup.2
          (List.mem_append_right _ (List.mem_map_of_mem _ heS))
      · rw [Bool.not_eq_true', hdisj e heS]
    rcases hbool with ⟨h1, h2⟩ | ⟨h1, h2⟩
    · exact Or.inl ⟨h1 ▸ hanode, h2 ▸ htnode⟩
    · exact Or.inr ⟨h1 ▸ hanode, h2 ▸ htnode⟩

theorem graph_structure_witness :
    ("A" ∈ artist_nodes edgesOne) ∧ ("t1" ∈ track_nodes edgesOne) ∧
    (graph_adj edgesOne "A" "t1" = true ↔
      (⟨"A", "t1"⟩ : Edge) ∈ filtered_edges 20 edgesOne) :=
  ⟨by decide, by decide,
    (graph_structure edgesOne).2.2.1 "A" "t1" (by decide) (by decide)⟩

/-- **C9** (behaviour at zero edges): on an empty edge list the plain
visualization builds the valid empty graph (no nodes, no kept edges)
and completes, but the clean visualization crashes before rendering:
its `pd.concat` is applied to the empty list of per-artist samples
(there are no artists) and raises
`ValueError: No objects to concatenate`, so no image is produced —
contrary to the claim that each rendering pipeline completes. -/
theorem zero_edges_clean_viz_crashes :
    graph_nodes [] = [] ∧ filtered_edges 20 [] = [] ∧
    sampled_edges_df takeSamp [] =
      Except.error "ValueError: No objects to concatenate" :=
  ⟨rfl, rfl, rfl⟩
